import Mathlib

/-!
Verification of the ML-mini-project training pipeline (face.py, model_utils.py,
logger_utils.py) against its natural-language specification.

The Python source is shallowly embedded: file-system and framework
collaborators (cv2, torch DataLoader, the optimizer step) appear as explicit
parameters of the environment structures; numeric tensor values are modelled
as real numbers, counts as naturals, and the learning-rate arithmetic as
rationals; fallible Python code (exceptions) is modelled with `Except`.
-/

/-- Errors that can abort the pipeline.  `osError` carries the result of an
`os.makedirs` call (`true` means `FileExistsError`, which is the one error the
source catches; any other OS error is `false` with a code). -/
inductive OSErr where
  | fileExists
  | other (code : ℕ)
deriving DecidableEq, Repr

/-- Run-time errors of the embedded pipeline, mirroring the Python exceptions:
`unreadableImage` for `cv2.cvtColor` on a failed `cv2.imread`, `badLabel` for
`int()` on a non-numeric (possibly empty-at-EOF) label field, `stopIteration`
for `next(iter(...))` on an empty dataloader, `zeroDiv` for the divisions by
`len(...)` or `total`, and `osError` for an uncaught `os.makedirs` failure. -/
inductive PErr where
  | unreadableImage
  | badLabel
  | stopIteration
  | zeroDiv
  | osError (e : OSErr)
deriving DecidableEq, Repr

deriving instance DecidableEq for Except

/-- Whitespace stripped by Python `int(str)` before parsing. -/
def isPySpace (c : Char) : Bool :=
  c == ' ' || c == '\t' || c == '\n' || c == '\r'

/-- Strip leading and trailing whitespace, as Python `int(str)` does. -/
def stripPy (cs : List Char) : List Char :=
  ((cs.dropWhile isPySpace).reverse.dropWhile isPySpace).reverse

/-- Accumulate a decimal value over a digit list; any non-digit fails. -/
def digitsToNat : List Char → ℕ → Option ℕ
  | [], acc => some acc
  | c :: cs, acc =>
    if c.isDigit then digitsToNat cs (10 * acc + (c.toNat - 48)) else none

/-- Model of Python `int(str)`: strip whitespace, optional sign, then a
non-empty run of decimal digits; anything else raises `ValueError`
(returns `none`).  In particular `int("")` fails, which is what happens
when `readline` is called past the end of the labels file. -/
def parseIntPy (s : String) : Option ℤ :=
  match stripPy s.toList with
  | [] => none
  | '+' :: ds =>
    if ds.isEmpty then none else (digitsToNat ds 0).map (fun n => (n : ℤ))
  | '-' :: ds =>
    if ds.isEmpty then none else (digitsToNat ds 0).map (fun n => -(n : ℤ))
  | ds => (digitsToNat ds 0).map (fun n => (n : ℤ))

/-- `line.split(" ")[0]` from the source: the text before the first space. -/
def firstSpaceField (s : String) : String :=
  ⟨s.toList.takeWhile (fun c => c != ' ')⟩

/-- `int(label_file.readline().split(" ")[0])` applied to one line. -/
def parseLabel (line : String) : Option ℤ :=
  parseIntPy (firstSpaceField line)

/-- The disk environment seen by `load_data`:  `files` is the
`os.listdir(data_path)` listing, `readImage` is `cv2.imread` (`none` when the
file is unreadable, in which case `cv2.cvtColor` raises), `processImage` is
the `cvtColor`/`resize`/`ToTensor`/`np.array` chain, and `labelLines` are the
lines of `data_dir/labels.txt` (reading past the end yields `""`). -/
structure LoadEnv (α β : Type) where
  files : List String
  readImage : String → Option α
  processImage : α → β
  labelLines : List String

/-- The loop body of `load_data` (face.py lines 98-111): for each directory
entry read and process the image, then read the next label line and parse it;
`lines.headD ""` models `readline` returning `""` once the file is
exhausted. -/
def loadLoop (env : LoadEnv α β) :
    List String → List String → Except PErr (List β × List ℤ)
  | [], _ => .ok ([], [])
  | f :: fs, lines =>
    match env.readImage f with
    | none => .error .unreadableImage
    | some raw =>
      match parseLabel (lines.headD "") with
      | none => .error .badLabel
      | some v =>
        match loadLoop env fs lines.tail with
        | .error e => .error e
        | .ok (imgs, labs) => .ok (env.processImage raw :: imgs, v :: labs)

/-- `load_data` (face.py lines 85-113). -/
def load_data (env : LoadEnv α β) : Except PErr (List β × List ℤ) :=
  loadLoop env env.files env.labelLines

/-- A concrete two-file environment whose labels file has one line. -/
def loadEnvShort : LoadEnv Unit Unit :=
  { files := ["a.png", "b.png"]
    readImage := fun _ => some ()
    processImage := fun _ => ()
    labelLines := ["1"] }

/-- A concrete two-file environment with two well-formed label lines. -/
def loadEnvOk : LoadEnv Unit Unit :=
  { files := ["a.png", "b.png"]
    readImage := fun _ => some ()
    processImage := fun _ => ()
    labelLines := ["1 extra", "0"] }

/-- The base learning rate `lr = 1e-5` (model_utils.py line 28), as an exact
rational. -/
def lrBase : ℚ := 1 / 100000

/-- `int(epochs * 0.7)` (model_utils.py line 31), modelled with exact rational
arithmetic; the binary rounding of the float literal `0.7` can shift the
result by one for some epoch counts, which the spec's "roughly 70%" absorbs. -/
def totalIters (epochs : ℕ) : ℕ := 7 * epochs / 10

/-- The torch `optim.lr_scheduler.LinearLR` factor after `e` steps, with
`start_factor = 1`, `end_factor = 0.1` and `total_iters = T` (closed form
`start + (end - start) * min e T / T`).  With `T = 0` the torch recurrence
never rescales (every step index exceeds `total_iters`), so the factor stays
at the start factor `1`. -/
def linearLRFactor (T e : ℕ) : ℚ :=
  if T = 0 then 1 else 1 + (1 / 10 - 1) * (min e T : ℚ) / (T : ℚ)

/-- The learning rate in force during epoch `e` of a `train_model` run with
`epochs` total epochs: `scheduler.step()` runs once at the end of each epoch
(model_utils.py line 81), so epoch `e` sees `e` completed scheduler steps. -/
def lrAt (epochs e : ℕ) : ℚ := lrBase * linearLRFactor (totalIters epochs) e

/-- `TEST_SIZE = 0.3` (face.py line 21), the default split ratio. -/
def TEST_SIZE : ℚ := 3 / 10

/-- The number of test samples sklearn `train_test_split` selects for a
dataset of `n` samples and fractional `test_size` `r`: `ceil(r * n)`. -/
def testCount (n : ℕ) (r : ℚ) : ℕ := (Int.ceil (r * n)).toNat

/-- Model of sklearn `train_test_split` (face.py lines 36-37): the library
draws a random permutation of the dataset (the `shuffled` argument here) and
returns the pair (train, test) where test is the first `testCount` entries of
the permutation and train is the rest. -/
def train_test_split (shuffled : List α) (r : ℚ) : List α × List α :=
  (shuffled.drop (testCount shuffled.length r),
    shuffled.take (testCount shuffled.length r))

/-- A rank-4 torch tensor (batch, channels, height, width): the shape plus an
entry function; float entries are modelled as reals. -/
structure Tensor4 where
  n : ℕ
  c : ℕ
  h : ℕ
  w : ℕ
  data : ℕ → ℕ → ℕ → ℕ → ℝ

/-- A rank-2 torch tensor (rows, columns). -/
structure Tensor2 where
  n : ℕ
  m : ℕ
  data : ℕ → ℕ → ℝ

/-- Zero-padded read of one spatial plane of a `Tensor4`, used by the
convolution: indices that fall in the padding border read 0. -/
def padded (x : Tensor4) (p b ch i j : ℕ) : ℝ :=
  if p ≤ i ∧ i < x.h + p ∧ p ≤ j ∧ j < x.w + p then
    x.data b ch (i - p) (j - p)
  else 0

/-- Spatial output size of `nn.Conv2d` for the given geometry. -/
def convOutDim (size kernel stride padding : ℕ) : ℕ :=
  (size + 2 * padding - kernel) / stride + 1

/-- `nn.Conv2d(inC, outC, kernel_size, stride, padding)` applied to a batch:
cross-correlation of the padded input with the kernel plus a bias per output
channel. -/
noncomputable def conv2d (weight : ℕ → ℕ → ℕ → ℕ → ℝ) (bias : ℕ → ℝ)
    (inC outC kernel stride padding : ℕ) (x : Tensor4) : Tensor4 where
  n := x.n
  c := outC
  h := convOutDim x.h kernel stride padding
  w := convOutDim x.w kernel stride padding
  data := fun b o i j =>
    bias o + ∑ ch ∈ Finset.range inC, ∑ ki ∈ Finset.range kernel,
      ∑ kj ∈ Finset.range kernel,
        weight o ch ki kj * padded x padding b ch (i * stride + ki)
          (j * stride + kj)

/-- Spatial output size of `nn.MaxPool2d` (padding 0). -/
def poolOutDim (size kernel stride : ℕ) : ℕ := (size - kernel) / stride + 1

/-- `nn.MaxPool2d(kernel_size, stride, padding=0)`: each output entry is the
maximum over its kernel window (the fold's start value is the window's first
element, so for a non-empty kernel this is exactly the window maximum). -/
noncomputable def maxPool2d (kernel stride : ℕ) (x : Tensor4) : Tensor4 where
  n := x.n
  c := x.c
  h := poolOutDim x.h kernel stride
  w := poolOutDim x.w kernel stride
  data := fun b ch i j =>
    ((List.range kernel).bind fun ki =>
      (List.range kernel).map fun kj =>
        x.data b ch (i * stride + ki) (j * stride + kj)).foldl max
      (x.data b ch (i * stride) (j * stride))

/-- `torch.relu` on a rank-4 tensor. -/
noncomputable def relu4 (x : Tensor4) : Tensor4 :=
  { x with data := fun b ch i j => max (x.data b ch i j) 0 }

/-- `x.view(-1, k)`: reinterpret the row-major entries as rows of length `k`;
the inferred first dimension is the element count divided by `k`. -/
def view2 (k : ℕ) (x : Tensor4) : Tensor2 where
  n := x.n * x.c * x.h * x.w / k
  m := k
  data := fun i j =>
    let f := i * k + j
    x.data (f / (x.c * x.h * x.w)) (f / (x.h * x.w) % x.c) (f / x.w % x.h)
      (f % x.w)

/-- `nn.Linear(inF, outF)`: affine map `x Wᵀ + b` on each row. -/
noncomputable def linear (weight : ℕ → ℕ → ℝ) (bias : ℕ → ℝ)
    (inF outF : ℕ) (x : Tensor2) : Tensor2 where
  n := x.n
  m := outF
  data := fun i o => bias o + ∑ j ∈ Finset.range inF, x.data i j * weight o j

/-- `torch.relu` on a rank-2 tensor. -/
noncomputable def relu2 (x : Tensor2) : Tensor2 :=
  { x with data := fun i j => max (x.data i j) 0 }

/-- `nn.Sigmoid` on a scalar: `1 / (1 + e^(-x))`. -/
noncomputable def sigmoidR (x : ℝ) : ℝ := 1 / (1 + Real.exp (-x))

/-- `nn.Sigmoid` applied entrywise to a rank-2 tensor. -/
noncomputable def sigmoid2 (x : Tensor2) : Tensor2 :=
  { x with data := fun i j => sigmoidR (x.data i j) }

/-- The parameters of `SmilingClassifier` (model_utils.py lines 110-119):
two 5x5 convolutions (3 to 32 and 32 to 64 channels, stride 1, padding 2),
and two fully-connected layers (64*45*48 to 512 and 512 to 1). -/
structure SmilingClassifier where
  conv1w : ℕ → ℕ → ℕ → ℕ → ℝ
  conv1b : ℕ → ℝ
  conv2w : ℕ → ℕ → ℕ → ℕ → ℝ
  conv2b : ℕ → ℝ
  fc1w : ℕ → ℕ → ℝ
  fc1b : ℕ → ℝ
  fc2w : ℕ → ℕ → ℝ
  fc2b : ℕ → ℝ

/-- `SmilingClassifier.forward` (model_utils.py lines 121-127): conv1, relu,
max-pool 2x2; conv2, relu, max-pool 2x2; flatten via `view(-1, 64*45*48)`;
fc1 with relu; fc2 with sigmoid. -/
noncomputable def SmilingClassifier.forward (m : SmilingClassifier)
    (x : Tensor4) : Tensor2 :=
  let x1 := maxPool2d 2 2 (relu4 (conv2d m.conv1w m.conv1b 3 32 5 1 2 x))
  let x2 := maxPool2d 2 2 (relu4 (conv2d m.conv2w m.conv2b 32 64 5 1 2 x1))
  let xv := view2 (64 * 45 * 48) x2
  let x3 := relu2 (linear m.fc1w m.fc1b (64 * 45 * 48) 512 xv)
  sigmoid2 (linear m.fc2w m.fc2b 512 1 x3)

/-- An all-zero parameter set, used as a concrete witness model. -/
noncomputable def zeroClassifier : SmilingClassifier where
  conv1w := fun _ _ _ _ => 0
  conv1b := fun _ => 0
  conv2w := fun _ _ _ _ => 0
  conv2b := fun _ => 0
  fc1w := fun _ _ => 0
  fc1b := fun _ => 0
  fc2w := fun _ _ => 0
  fc2b := fun _ => 0

/-- A concrete all-zero batch of one 3x192x180 image. -/
noncomputable def zeroBatch : Tensor4 :=
  ⟨1, 3, 192, 180, fun _ _ _ _ => 0⟩

/-- `(output > 0.5).float()`: the thresholded prediction, 1.0 or 0.0. -/
noncomputable def thresholdFloat (o : ℝ) : ℝ := if o > 1 / 2 then 1 else 0

/-- `((outputs > 0.5).float() == targets).sum().item()`: the number of
positions whose thresholded prediction equals the target value. -/
noncomputable def countCorrect (outputs targets : List ℝ) : ℕ :=
  (outputs.zip targets).countP fun p => decide (thresholdFloat p.1 = p.2)

/-- torch clamps the logarithms inside `BCELoss` to at least -100. -/
noncomputable def clampLog (x : ℝ) : ℝ := max (Real.log x) (-100)

/-- `nn.BCELoss()` with default mean reduction on a flat pair of
equally-shaped tensors: `-(1/n) * sum (y*log x + (1-y)*log (1-x))`. -/
noncomputable def bceLoss (outputs targets : List ℝ) : ℝ :=
  -((outputs.zip targets).map fun p =>
      p.2 * clampLog p.1 + (1 - p.2) * clampLog (1 - p.1)).sum /
    ((outputs.zip targets).length : ℝ)

/-- The mutable state of an `nn.Module` seen by this pipeline: its parameters
(an abstract type, since the evaluator and trainer are generic in the model)
and the `training` mode flag toggled by `model.train()` / `model.eval()`. -/
structure EvalState (M : Type) where
  model : M
  training : Bool
deriving DecidableEq

/-- The accumulator loop of `eval_model` (model_utils.py lines 96-103):
running `val_loss`, `correct` count and `total` sample count over the
batches; `f` is the model's forward function on one batch input. -/
noncomputable def evalLoop (f : M → α → List ℝ) (m : M) :
    List (α × List ℝ) → ℝ → ℕ → ℕ → ℝ × ℕ × ℕ
  | [], vl, c, t => (vl, c, t)
  | (inputs, targets) :: bs, vl, c, t =>
    let outputs := f m inputs
    let loss := bceLoss outputs targets
    evalLoop f m bs (vl + loss) (c + countCorrect outputs targets)
      (t + targets.length)

/-- `eval_model` (model_utils.py lines 90-107): set the module to eval mode,
accumulate loss/correct/total over the batches without touching parameters,
then return (average loss over batches, 100 * correct / total).  The two
divisions raise `ZeroDivisionError` when the batch list is empty or the
total sample count is zero. -/
noncomputable def eval_model (f : M → α → List ℝ) (st : EvalState M)
    (batches : List (α × List ℝ)) : EvalState M × Except PErr (ℝ × ℝ) :=
  let st1 : EvalState M := { st with training := false }
  let r := evalLoop f st1.model batches 0 0 0
  (st1,
    if batches.length = 0 then .error .zeroDiv
    else if r.2.2 = 0 then .error .zeroDiv
    else .ok (r.1 / (batches.length : ℝ), 100 * (r.2.1 : ℝ) / (r.2.2 : ℝ)))

/-- Everything `train_model` needs from its collaborators: the model's
forward function on one batch input, the combined effect of
`zero_grad`/`backward`/`optimizer.step()` on the parameters at a given
learning rate for one batch (torch autograd internals, abstracted), the two
dataloaders as batch lists (inputs paired with flat target values) and the
outcome of the `os.makedirs(save_dir)` call. -/
structure TrainEnv (α M : Type) where
  forwardF : M → α → List ℝ
  stepF : M → ℚ → α → List ℝ → M
  trainBatches : List (α × List ℝ)
  testBatches : List (α × List ℝ)
  mkdirResult : Except OSErr Unit

/-- The observable events `train_model` emits: tensorboard scalar groups,
single scalars, figures, and checkpoint-file writes. -/
inductive TrainEvent where
  | scalars (tag : String) (vals : List (String × ℝ)) (step : ℕ)
  | scalar (tag : String) (value : ℝ) (step : ℕ)
  | figure (tag : String) (step : ℕ)
  | save (path : String)

/-- `os.path.join(save_dir, f"{epoch}.pt")` (model_utils.py line 79). -/
def savePath (saveDir : String) (epoch : ℕ) : String :=
  saveDir ++ "/" ++ toString epoch ++ ".pt"

/-- The `try: os.makedirs(save_dir) except FileExistsError: pass` block
(model_utils.py lines 34-37): a `FileExistsError` is swallowed, any other
outcome is passed through. -/
def makedirsCaught (r : Except OSErr Unit) : Except OSErr Unit :=
  match r with
  | .error .fileExists => .ok ()
  | other => other

/-- The inner batch loop of one training epoch (model_utils.py lines 47-57):
forward, loss, backward/step, then accumulate `running_loss` and the
`correct` count (the outputs used for the count come from the model before
its update, as in the source). -/
noncomputable def runTrainBatches (env : TrainEnv α M) (lr : ℚ) :
    List (α × List ℝ) → M → ℝ → ℕ → M × ℝ × ℕ
  | [], m, rl, c => (m, rl, c)
  | (inputs, targets) :: bs, m, rl, c =>
    let outputs := env.forwardF m inputs
    let loss := bceLoss outputs targets
    let m1 := env.stepF m lr inputs targets
    runTrainBatches env lr bs m1 (rl + loss)
      (c + countCorrect outputs targets)

/-- The sequence of models seen at the start of each batch of an epoch
(ghost definition used to state what the loop's `correct` accumulator
sums). -/
noncomputable def runModels (env : TrainEnv α M) (lr : ℚ) :
    List (α × List ℝ) → M → List M
  | [], _ => []
  | (inputs, targets) :: bs, m =>
    m :: runModels env lr bs (env.stepF m lr inputs targets)

/-- The whole-epoch correct-prediction count: for each batch, the number of
thresholded predictions (computed by the model as of that batch) that match
the targets, summed over the epoch's batches. -/
noncomputable def batchCorrectSum (env : TrainEnv α M) (lr : ℚ)
    (bs : List (α × List ℝ)) (m : M) : ℕ :=
  (List.zipWith
    (fun (b : α × List ℝ) mm => countCorrect (env.forwardF mm b.1) b.2)
    bs (runModels env lr bs m)).sum

/-- The value `train_model` writes to the scalar `accuracy/Train` for an
epoch started with model `m`: the whole-epoch correct count divided by the
number of training batches (model_utils.py lines 68-69) — not by the number
of training samples. -/
noncomputable def accTrainValue (env : TrainEnv α M) (N e : ℕ) (m : M) : ℝ :=
  (batchCorrectSum env (lrAt N e) env.trainBatches m : ℝ) /
    (env.trainBatches.length : ℝ)

/-- One epoch of `train_model` (model_utils.py lines 41-81): `model.train()`,
the batch loop, `average_loss = running_loss / len(train_dataloader)`
(a `ZeroDivisionError` on an empty loader), `eval_model`, the four writer
events, and the conditional checkpoint save. -/
noncomputable def epochRun (env : TrainEnv α M) (N e : ℕ) (nosave : Bool)
    (saveDir : String) (st : EvalState M) :
    Except PErr (EvalState M × List TrainEvent) :=
  let stT : EvalState M := { st with training := true }
  let r := runTrainBatches env (lrAt N e) env.trainBatches stT.model 0 0
  if env.trainBatches.length = 0 then .error .zeroDiv
  else
    let ev := eval_model env.forwardF
      { model := r.1, training := stT.training } env.testBatches
    match ev.2 with
    | .error err => .error err
    | .ok q =>
      .ok (ev.1,
        [.scalars "loss"
            [("Train", r.2.1 / (env.trainBatches.length : ℝ)), ("Eval", q.1)]
            (e + 1),
          .scalar "accuracy/Train"
            ((r.2.2 : ℝ) / (env.trainBatches.length : ℝ)) (e + 1),
          .scalar "accuracy/Eval" q.2 (e + 1),
          .figure "predictions vs. actuals" (e + 1)] ++
        if nosave = false ∧ e % 3 = 2 then [.save (savePath saveDir e)]
        else [])

/-- The epoch loop of `train_model`: `n` remaining epochs starting at epoch
index `e`; errors abort the run, events accumulate in order. -/
noncomputable def trainLoop (env : TrainEnv α M) (N : ℕ) (nosave : Bool)
    (saveDir : String) :
    ℕ → ℕ → EvalState M → Except PErr (List TrainEvent × EvalState M)
  | 0, _, st => .ok ([], st)
  | n + 1, e, st =>
    match epochRun env N e nosave saveDir st with
    | .error err => .error err
    | .ok (st1, evs) =>
      match trainLoop env N nosave saveDir n (e + 1) st1 with
      | .error err => .error err
      | .ok (rest, stf) => .ok (evs ++ rest, stf)

/-- `train_model` (model_utils.py lines 12-87): read a sample batch from the
test loader (`StopIteration` if it is empty), create the checkpoint
directory swallowing only `FileExistsError`, then run the epoch loop.
Returns the event trace and the final model state. -/
noncomputable def train_model (env : TrainEnv α M) (epochs : ℕ)
    (nosave : Bool) (saveDir : String) (st : EvalState M) :
    Except PErr (List TrainEvent × EvalState M) :=
  match env.testBatches with
  | [] => .error .stopIteration
  | _ :: _ =>
    match makedirsCaught env.mkdirResult with
    | .error e => .error (.osError e)
    | .ok _ => trainLoop env epochs nosave saveDir epochs 0 st

/-- The checkpoint paths appearing in an event trace, in order. -/
def savesOf (evs : List TrainEvent) : List String :=
  evs.filterMap fun ev =>
    match ev with
    | .save p => some p
    | _ => none

/-- The values written to the scalar `accuracy/Train`, in order. -/
def accTrainOf (evs : List TrainEvent) : List ℝ :=
  evs.filterMap fun ev =>
    match ev with
    | .scalar tag v _ => if tag = "accuracy/Train" then some v else none
    | _ => none

/-- The checkpoint paths the epoch loop is expected to write over `n` epochs
starting at epoch `e`. -/
def expectedSaves (nosave : Bool) (saveDir : String) : ℕ → ℕ → List String
  | 0, _ => []
  | n + 1, e =>
    (if nosave = false ∧ e % 3 = 2 then [savePath saveDir e] else []) ++
      expectedSaves nosave saveDir n (e + 1)

/-- The `accuracy/Train` values the epoch loop is expected to emit over `n`
epochs starting at epoch `e` with model `m`. -/
noncomputable def expectedAccTrain (env : TrainEnv α M) (N : ℕ) :
    M → ℕ → ℕ → List ℝ
  | m, 0, _ => []
  | m, n + 1, e =>
    accTrainValue env N e m ::
      expectedAccTrain env N
        (runTrainBatches env (lrAt N e) env.trainBatches m 0 0).1 n (e + 1)

/-- `main`'s sequencing of the loader and the trainer (face.py lines 32-73):
`pipe` stands for the split/tensor/dataloader plumbing that turns the loaded
data into the trainer's inputs.  No stage catches any error. -/
noncomputable def loadAndTrain (lenv : LoadEnv γ δ)
    (pipe : List δ × List ℤ → TrainEnv α M × EvalState M) (N : ℕ)
    (nosave : Bool) (saveDir : String) :
    Except PErr (List TrainEvent × EvalState M) :=
  match load_data lenv with
  | .error e => .error e
  | .ok d =>
    let p := pipe d
    train_model p.1 N nosave saveDir p.2

/-- A minimal concrete trainer environment: one one-sample training batch,
one one-sample test batch, a parameterless model whose output matches the
labels, and a successful `os.makedirs`. -/
noncomputable def trivialEnv : TrainEnv Unit Unit where
  forwardF := fun _ _ => [1]
  stepF := fun m _ _ _ => m
  trainBatches := [((), [1])]
  testBatches := [((), [1])]
  mkdirResult := .ok ()

/-- Like `trivialEnv` but the single training batch holds two samples, both
predicted correctly. -/
noncomputable def bigBatchEnv : TrainEnv Unit Unit where
  forwardF := fun _ _ => [1, 1]
  stepF := fun m _ _ _ => m
  trainBatches := [((), [1, 1])]
  testBatches := [((), [1])]
  mkdirResult := .ok ()

/-- `trivialEnv` with `os.makedirs` raising `FileExistsError`. -/
noncomputable def feEnv : TrainEnv Unit Unit :=
  { trivialEnv with mkdirResult := .error .fileExists }

/-- `trivialEnv` with `os.makedirs` raising a non-`FileExistsError` OS error
(e.g. `PermissionError`). -/
noncomputable def permEnv : TrainEnv Unit Unit :=
  { trivialEnv with mkdirResult := .error (.other 13) }

theorem parseLabel_empty : parseLabel "" = none := by decide

theorem loadLoop_error (env : LoadEnv α β) :
    ∀ fs lines : List String, lines.length < fs.length →
      ∃ e, loadLoop env fs lines = .error e := by
  intro fs
  induction fs with
  | nil => intro lines h; simp at h
  | cons f fs ih =>
    intro lines h
    simp only [loadLoop]
    cases hr : env.readImage f with
    | none => exact ⟨.unreadableImage, rfl⟩
    | some raw =>
      cases hp : parseLabel (lines.headD "") with
      | none => exact ⟨.badLabel, rfl⟩
      | some v =>
        cases lines with
        | nil => simp [parseLabel_empty] at hp
        | cons l ls =>
          simp only [List.length_cons] at h
          obtain ⟨e, he⟩ := ih ls (by omega)
          refine ⟨e, ?_⟩
          simp only [List.tail_cons, he]

theorem loadLoop_ok (env : LoadEnv α β) :
    ∀ (fs lines : List String) (imgs : List β) (labs : List ℤ),
      loadLoop env fs lines = .ok (imgs, labs) →
      imgs.length = labs.length ∧ labs.length = fs.length ∧
      ∀ i, i < fs.length →
        (∃ raw, env.readImage (fs.getD i "") = some raw ∧
          imgs[i]? = some (env.processImage raw)) ∧
        ∃ v, parseLabel (lines.getD i "") = some v ∧ labs[i]? = some v := by
  intro fs
  induction fs with
  | nil =>
    intro lines imgs labs h
    simp only [loadLoop] at h
    cases h
    simp
  | cons f fs ih =>
    intro lines imgs labs h
    simp only [loadLoop] at h
    cases hr : env.readImage f with
    | none => rw [hr] at h; cases h
    | some raw =>
      rw [hr] at h
      cases hp : parseLabel (lines.headD "") with
      | none => rw [hp] at h; cases h
      | some v =>
        rw [hp] at h
        cases hrec : loadLoop env fs lines.tail with
        | error e => rw [hrec] at h; cases h
        | ok p =>
          obtain ⟨imgs0, labs0⟩ := p
          rw [hrec] at h
          cases h
          obtain ⟨hlen, hlen2, hidx⟩ := ih lines.tail imgs0 labs0 hrec
          refine ⟨by simp [hlen], by simp [hlen2], ?_⟩
          intro i hi
          cases i with
          | zero =>
            constructor
            · exact ⟨raw, by simpa using hr, by simp⟩
            · refine ⟨v, ?_, by simp⟩
              cases lines with
              | nil => simpa using hp
              | cons l ls => simpa using hp
          | succ j =>
            simp only [List.length_cons] at hi
            obtain ⟨h1, h2⟩ := hidx j (by omega)
            constructor
            · simpa using h1
            · obtain ⟨w, hw1, hw2⟩ := h2
              refine ⟨w, ?_, by simpa using hw2⟩
              cases lines with
              | nil => simpa using hw1
              | cons l ls => simpa using hw1

/-- C1: for every data directory whose labels file contains fewer label lines
than there are files in the image directory listing, `load_data` raises an
error (fails loudly) rather than returning a result; label-file exhaustion is
never silently tolerated. -/
theorem C1_label_exhaustion_raises (env : LoadEnv α β)
    (h : env.labelLines.length < env.files.length) :
    ∃ e, load_data env = .error e :=
  loadLoop_error env env.files env.labelLines h

theorem C1_label_exhaustion_raises_witness :
    loadEnvShort.labelLines.length < loadEnvShort.files.length ∧
    ∃ e, load_data loadEnvShort = .error e :=
  ⟨by decide, C1_label_exhaustion_raises loadEnvShort (by decide)⟩

/-- C2: whenever `load_data` returns successfully, the image list and label
list have equal length, that length equals the number of files in the image
directory listing, and the i-th label is the integer parsed from the i-th line
of the labels file while the i-th image comes from the i-th directory entry
(positional correspondence with the directory-listing order). -/
theorem C2_load_data_alignment (env : LoadEnv α β) (imgs : List β)
    (labs : List ℤ) (h : load_data env = .ok (imgs, labs)) :
    imgs.length = labs.length ∧ labs.length = env.files.length ∧
    ∀ i, i < env.files.length →
      (∃ raw, env.readImage (env.files.getD i "") = some raw ∧
        imgs[i]? = some (env.processImage raw)) ∧
      ∃ v, parseLabel (env.labelLines.getD i "") = some v ∧ labs[i]? = some v :=
  loadLoop_ok env env.files env.labelLines imgs labs h

theorem C2_load_data_alignment_witness :
    load_data loadEnvOk = .ok ([(), ()], ([1, 0] : List ℤ)) ∧
    ([(), ()] : List Unit).length = ([1, 0] : List ℤ).length ∧
    ([1, 0] : List ℤ).length = loadEnvOk.files.length ∧
    ∃ v, parseLabel (loadEnvOk.labelLines.getD 0 "") = some v ∧
      ([1, 0] : List ℤ)[0]? = some v := by
  have h : load_data loadEnvOk = .ok ([(), ()], ([1, 0] : List ℤ)) := by
    decide
  have t := C2_load_data_alignment loadEnvOk [(), ()] [1, 0] h
  exact ⟨h, t.1, t.2.1, (t.2.2 0 (by decide)).2⟩

/-- C5 (amended): provided `int(0.7 * epochs)` is at least 1 (true for every
run of at least two epochs), the learning rate decays linearly from 1.0 times
to 0.1 times the base rate over the first `int(0.7 * epochs)` epochs, the
scheduler being stepped once per epoch, and is held at 0.1 times the base
rate for all remaining epochs.  (For a one-epoch run `int(0.7 * 1) = 0` and
torch's `LinearLR` then never rescales, so the rate stays at the full base
rate; see the counterexample theorem.) -/
theorem C5_lr_schedule (N : ℕ) (hT : 1 ≤ totalIters N) :
    (∀ e, e ≤ totalIters N →
      lrAt N e = lrBase * (1 - 9 / 10 * (e : ℚ) / (totalIters N : ℚ))) ∧
    ∀ e, totalIters N ≤ e → lrAt N e = lrBase * (1 / 10) := by
  have hT0 : totalIters N ≠ 0 := by omega
  have hTQ : ((totalIters N : ℕ) : ℚ) ≠ 0 := by exact_mod_cast hT0
  constructor
  · intro e he
    have hmin : min (e : ℚ) ((totalIters N : ℕ) : ℚ) = (e : ℚ) :=
      min_eq_left (by exact_mod_cast he)
    simp only [lrAt, linearLRFactor, if_neg hT0, hmin]
    field_simp
    exact Or.inl (by ring)
  · intro e he
    have hmin : min (e : ℚ) ((totalIters N : ℕ) : ℚ) = ((totalIters N : ℕ) : ℚ) :=
      min_eq_right (by exact_mod_cast he)
    simp only [lrAt, linearLRFactor, if_neg hT0, hmin]
    field_simp
    ring

theorem C5_lr_schedule_counterexample :
    totalIters 1 = 0 ∧ lrAt 1 0 = lrBase ∧ lrAt 1 0 ≠ lrBase * (1 / 10) := by
  refine ⟨rfl, ?_, ?_⟩
  · show lrBase * linearLRFactor (totalIters 1) 0 = lrBase
    norm_num [linearLRFactor, totalIters]
  · show lrBase * linearLRFactor (totalIters 1) 0 ≠ lrBase * (1 / 10)
    norm_num [linearLRFactor, totalIters, lrBase]

theorem C5_lr_schedule_witness :
    1 ≤ totalIters 10 ∧
    lrAt 10 7 = lrBase * (1 - 9 / 10 * ((7 : ℕ) : ℚ) / (totalIters 10 : ℚ)) ∧
    lrAt 10 9 = lrBase * (1 / 10) :=
  ⟨by norm_num [totalIters], (C5_lr_schedule 10 (by norm_num [totalIters])).1 7
    (by norm_num [totalIters]),
    (C5_lr_schedule 10 (by norm_num [totalIters])).2 9 (by norm_num [totalIters])⟩

/-- C8: for every dataset, every shuffle of it and every split ratio in
(0,1), `train_test_split` produces train and test subsets whose lengths sum
to the dataset length, which together are exactly a permutation of the
dataset (each sample occurrence lands in exactly one of the two subsets, so
the subsets are disjoint), with the test subset holding `ceil(r * n)`
samples; the default split ratio `TEST_SIZE` is 0.3, i.e. a 70/30 split. -/
theorem C8_split_partition [DecidableEq α] (dataset shuffled : List α) (r : ℚ)
    (hperm : shuffled.Perm dataset) (h0 : 0 < r) (h1 : r < 1) :
    (train_test_split shuffled r).1.length +
      (train_test_split shuffled r).2.length = dataset.length ∧
    ((train_test_split shuffled r).2 ++ (train_test_split shuffled r).1).Perm
      dataset ∧
    (∀ a, (train_test_split shuffled r).1.count a +
      (train_test_split shuffled r).2.count a = dataset.count a) ∧
    (train_test_split shuffled r).2.length = testCount dataset.length r ∧
    TEST_SIZE = 3 / 10 := by
  have hlen : shuffled.length = dataset.length := hperm.length_eq
  have happ : (train_test_split shuffled r).2 ++ (train_test_split shuffled r).1
      = shuffled := by
    simp [train_test_split]
  have hperm2 : ((train_test_split shuffled r).2 ++
      (train_test_split shuffled r).1).Perm dataset := by
    rw [happ]; exact hperm
  have hk : testCount dataset.length r ≤ dataset.length := by
    have hrn : r * (dataset.length : ℚ) ≤ (dataset.length : ℚ) := by
      have := mul_le_of_le_one_left
        (by positivity : (0 : ℚ) ≤ (dataset.length : ℚ)) (le_of_lt h1)
      simpa using this
    have hceil : Int.ceil (r * (dataset.length : ℚ)) ≤ (dataset.length : ℤ) :=
      Int.ceil_le.mpr (by exact_mod_cast hrn)
    have := Int.toNat_le_toNat hceil
    simpa [testCount] using this
  refine ⟨?_, hperm2, ?_, ?_, rfl⟩
  · simp only [train_test_split, List.length_drop, List.length_take, hlen]
    omega
  · intro a
    have := hperm2.count_eq a
    simp only [List.count_append] at this
    omega
  · simp only [train_test_split, List.length_take, hlen]
    omega

theorem C8_split_partition_witness :
    ([2, 0, 3, 1] : List ℕ).Perm [0, 1, 2, 3] ∧
    (0 : ℚ) < 3 / 10 ∧ (3 : ℚ) / 10 < 1 ∧
    (train_test_split ([2, 0, 3, 1] : List ℕ) (3 / 10)).1.length +
      (train_test_split ([2, 0, 3, 1] : List ℕ) (3 / 10)).2.length =
      ([0, 1, 2, 3] : List ℕ).length ∧
    (train_test_split ([2, 0, 3, 1] : List ℕ) (3 / 10)).2.length =
      testCount ([0, 1, 2, 3] : List ℕ).length (3 / 10) ∧
    TEST_SIZE = 3 / 10 := by
  have hp : ([2, 0, 3, 1] : List ℕ).Perm [0, 1, 2, 3] := by decide
  have t := C8_split_partition ([0, 1, 2, 3] : List ℕ) [2, 0, 3, 1] (3 / 10)
    hp (by norm_num) (by norm_num)
  exact ⟨hp, by norm_num, by norm_num, t.1, t.2.2.2.1, t.2.2.2.2⟩

theorem sigmoidR_nonneg (x : ℝ) : 0 ≤ sigmoidR x := by
  unfold sigmoidR
  positivity

theorem sigmoidR_le_one (x : ℝ) : sigmoidR x ≤ 1 := by
  unfold sigmoidR
  rw [div_le_one (by positivity)]
  linarith [Real.exp_pos (-x)]

/-- C3: for every parameter set and every input batch of shape (B, 3, H, W)
with H = 192 and W = 180 (the configured image size), the classifier's
forward pass returns a tensor of shape (B, 1) and every entry of it lies in
[0, 1]. -/
theorem C3_forward_shape_range (m : SmilingClassifier) (x : Tensor4) (B : ℕ)
    (hn : x.n = B) (hc : x.c = 3) (hh : x.h = 192) (hw : x.w = 180) :
    (m.forward x).n = B ∧ (m.forward x).m = 1 ∧
    ∀ i j, 0 ≤ (m.forward x).data i j ∧ (m.forward x).data i j ≤ 1 := by
  refine ⟨?_, rfl, fun i j => ⟨sigmoidR_nonneg _, sigmoidR_le_one _⟩⟩
  simp only [SmilingClassifier.forward, sigmoid2, linear, relu2, view2,
    maxPool2d, relu4, conv2d, convOutDim, poolOutDim, hn, hc, hh, hw]
  omega

theorem C3_forward_shape_range_witness :
    zeroBatch.n = 1 ∧ zeroBatch.c = 3 ∧ zeroBatch.h = 192 ∧
      zeroBatch.w = 180 ∧
    (zeroClassifier.forward zeroBatch).n = 1 ∧
    (zeroClassifier.forward zeroBatch).m = 1 ∧
    0 ≤ (zeroClassifier.forward zeroBatch).data 0 0 ∧
    (zeroClassifier.forward zeroBatch).data 0 0 ≤ 1 := by
  have t := C3_forward_shape_range zeroClassifier zeroBatch 1 rfl rfl rfl rfl
  exact ⟨rfl, rfl, rfl, rfl, t.1, t.2.1, (t.2.2 0 0).1, (t.2.2 0 0).2⟩

theorem evalLoop_eq (f : M → α → List ℝ) (m : M) :
    ∀ (bs : List (α × List ℝ)) (vl : ℝ) (c t : ℕ),
      evalLoop f m bs vl c t =
        (vl + (bs.map fun b => bceLoss (f m b.1) b.2).sum,
          c + (bs.map fun b => countCorrect (f m b.1) b.2).sum,
          t + (bs.map fun b => b.2.length).sum) := by
  intro bs
  induction bs with
  | nil => intro vl c t; simp [evalLoop]
  | cons b bs ih =>
    intro vl c t
    obtain ⟨inputs, targets⟩ := b
    simp only [evalLoop, ih, List.map_cons, List.sum_cons]
    refine congrArg₂ _ (by ring) (congrArg₂ _ (by omega) (by omega))

/-- C6 (amended): running `eval_model` twice in succession with no training
in between yields identical loss/accuracy results, and neither run mutates
any model parameter; however the first run does have one side effect beyond
returning the two scalars — `model.eval()` sets the module's training flag to
false — after which the second run changes nothing at all. -/
theorem C6_eval_deterministic (f : M → α → List ℝ) (st : EvalState M)
    (batches : List (α × List ℝ)) :
    (eval_model f ((eval_model f st batches).1) batches).2 =
      (eval_model f st batches).2 ∧
    (eval_model f st batches).1.model = st.model ∧
    (eval_model f st batches).1.training = false ∧
    (eval_model f ((eval_model f st batches).1) batches).1 =
      (eval_model f st batches).1 :=
  ⟨rfl, rfl, rfl, rfl⟩

theorem C6_eval_counterexample :
    (eval_model (fun (_ : Unit) (_ : Unit) => ([] : List ℝ))
      ⟨(), true⟩ ([] : List (Unit × List ℝ))).1 ≠
      (⟨(), true⟩ : EvalState Unit) := by
  intro h
  have h2 : (eval_model (fun (_ : Unit) (_ : Unit) => ([] : List ℝ))
      ⟨(), true⟩ ([] : List (Unit × List ℝ))).1.training = false := rfl
  rw [h] at h2
  cases h2

/-- C7: for every model and every non-empty batch set whose batches are
non-empty (as every torch DataLoader batch is), `eval_model` returns
accuracy equal to 100 times the number of samples whose thresholded
prediction equals the label divided by the total number of samples, and
loss equal to the average of the per-batch binary cross-entropy losses. -/
theorem C7_eval_formulas (f : M → α → List ℝ) (st : EvalState M)
    (batches : List (α × List ℝ)) (hne : batches ≠ [])
    (hb : ∀ b ∈ batches, b.2.length ≠ 0) :
    (eval_model f st batches).2 = .ok
      ((batches.map fun b => bceLoss (f st.model b.1) b.2).sum /
        (batches.length : ℝ),
        100 * ((batches.map fun b => countCorrect (f st.model b.1) b.2).sum : ℝ)
          / ((batches.map fun b => b.2.length).sum : ℝ)) := by
  have hlen : batches.length ≠ 0 := by
    intro h; exact hne (List.length_eq_zero.mp h)
  have htot : (batches.map fun b => b.2.length).sum ≠ 0 := by
    cases batches with
    | nil => exact absurd rfl hne
    | cons b bs =>
      have := hb b (by simp)
      simp only [List.map_cons, List.sum_cons]
      omega
  simp only [eval_model, evalLoop_eq, Nat.zero_add, zero_add, if_neg hlen,
    if_neg htot]
  norm_cast
  rw [List.map_map]
  rfl

theorem C7_eval_formulas_witness :
    (eval_model (fun (_ : Unit) (_ : Unit) => [(1 : ℝ)]) ⟨(), true⟩
      [((), [1])]).2 = .ok (bceLoss [(1 : ℝ)] [(1 : ℝ)] / 1,
        100 * (countCorrect [(1 : ℝ)] [(1 : ℝ)] : ℝ) / 1) := by
  have t := C7_eval_formulas (fun (_ : Unit) (_ : Unit) => [(1 : ℝ)])
    ⟨(), true⟩ [((), [1])] (by simp) (by simp)
  simpa using t

theorem runTrainBatches_correct (env : TrainEnv α M) (lr : ℚ) :
    ∀ (bs : List (α × List ℝ)) (m : M) (rl : ℝ) (c : ℕ),
      (runTrainBatches env lr bs m rl c).2.2 =
        c + batchCorrectSum env lr bs m := by
  intro bs
  induction bs with
  | nil => intro m rl c; simp [runTrainBatches, batchCorrectSum, runModels]
  | cons b bs ih =>
    intro m rl c
    obtain ⟨inputs, targets⟩ := b
    simp only [runTrainBatches, ih, batchCorrectSum, runModels,
      List.zipWith_cons_cons, List.sum_cons]
    omega

theorem eval_model_ok (f : M → α → List ℝ) (st : EvalState M)
    (batches : List (α × List ℝ)) (hne : batches ≠ [])
    (hb : ∀ b ∈ batches, b.2.length ≠ 0) :
    ∃ la, eval_model f st batches =
      ({ model := st.model, training := false }, .ok la) := by
  have hlen : ¬(batches.length = 0) := fun h => hne (List.length_eq_zero.mp h)
  have htot : ¬((evalLoop f st.model batches 0 0 0).2.2 = 0) := by
    rw [evalLoop_eq]
    cases batches with
    | nil => exact absurd rfl hne
    | cons b bs =>
      have := hb b (by simp)
      simp only [List.map_cons, List.sum_cons, Nat.zero_add]
      omega
  refine ⟨((evalLoop f st.model batches 0 0 0).1 / (batches.length : ℝ),
    100 * ((evalLoop f st.model batches 0 0 0).2.1 : ℝ) /
      ((evalLoop f st.model batches 0 0 0).2.2 : ℝ)), ?_⟩
  simp only [eval_model, if_neg hlen, if_neg htot]

theorem epochRun_ok (env : TrainEnv α M) (N e : ℕ) (nosave : Bool)
    (saveDir : String) (st : EvalState M)
    (htr : env.trainBatches ≠ []) (hte : env.testBatches ≠ [])
    (hb : ∀ b ∈ env.testBatches, b.2.length ≠ 0) :
    ∃ evs, epochRun env N e nosave saveDir st =
      .ok (⟨(runTrainBatches env (lrAt N e) env.trainBatches st.model 0 0).1,
        false⟩, evs) ∧
      savesOf evs =
        (if nosave = false ∧ e % 3 = 2 then [savePath saveDir e] else []) ∧
      accTrainOf evs = [accTrainValue env N e st.model] := by
  have hlen : ¬(env.trainBatches.length = 0) :=
    fun h => htr (List.length_eq_zero.mp h)
  obtain ⟨la, heval⟩ := eval_model_ok env.forwardF
    ⟨(runTrainBatches env (lrAt N e) env.trainBatches st.model 0 0).1, true⟩
    env.testBatches hte hb
  have hsne : ¬(("accuracy/Eval" : String) = "accuracy/Train") := by decide
  refine ⟨[.scalars "loss"
      [("Train",
        (runTrainBatches env (lrAt N e) env.trainBatches st.model 0 0).2.1 /
          (env.trainBatches.length : ℝ)), ("Eval", la.1)] (e + 1),
    .scalar "accuracy/Train"
      (((runTrainBatches env (lrAt N e) env.trainBatches st.model 0 0).2.2 : ℝ)
        / (env.trainBatches.length : ℝ)) (e + 1),
    .scalar "accuracy/Eval" la.2 (e + 1),
    .figure "predictions vs. actuals" (e + 1)] ++
    (if nosave = false ∧ e % 3 = 2 then [.save (savePath saveDir e)] else []),
    ?_, ?_, ?_⟩
  · simp only [epochRun, if_neg hlen]
    rw [heval]
  · by_cases hc : nosave = false ∧ e % 3 = 2 <;>
      simp [savesOf, hc]
  · simp [accTrainOf, accTrainValue, hsne, runTrainBatches_correct]
    intro a _ _ ha
    subst ha
    rfl

theorem trainLoop_ok (env : TrainEnv α M) (N : ℕ) (nosave : Bool)
    (saveDir : String) (htr : env.trainBatches ≠ [])
    (hte : env.testBatches ≠ [])
    (hb : ∀ b ∈ env.testBatches, b.2.length ≠ 0) :
    ∀ (n e : ℕ) (st : EvalState M),
      ∃ evs stf, trainLoop env N nosave saveDir n e st = .ok (evs, stf) ∧
        savesOf evs = expectedSaves nosave saveDir n e ∧
        accTrainOf evs = expectedAccTrain env N st.model n e := by
  intro n
  induction n with
  | zero =>
    intro e st
    exact ⟨[], st, rfl, rfl, rfl⟩
  | succ n ih =>
    intro e st
    obtain ⟨evs0, hrun, hsave0, hacc0⟩ :=
      epochRun_ok env N e nosave saveDir st htr hte hb
    obtain ⟨rest, stf, hloop, hsave1, hacc1⟩ :=
      ih (e + 1)
        ⟨(runTrainBatches env (lrAt N e) env.trainBatches st.model 0 0).1,
          false⟩
    refine ⟨evs0 ++ rest, stf, ?_, ?_, ?_⟩
    · simp only [trainLoop, hrun, hloop]
    · simp only [savesOf, List.filterMap_append] at hsave0 hsave1 ⊢
      rw [hsave0, hsave1]
      rfl
    · simp only [accTrainOf, List.filterMap_append] at hacc0 hacc1 ⊢
      rw [hacc0, hacc1]
      rfl

theorem runTrainBatches_mkdir_irrel (env : TrainEnv α M)
    (r : Except OSErr Unit) (lr : ℚ) :
    ∀ (bs : List (α × List ℝ)) (m : M) (rl : ℝ) (c : ℕ),
      runTrainBatches { env with mkdirResult := r } lr bs m rl c =
        runTrainBatches env lr bs m rl c := by
  intro bs
  induction bs with
  | nil => intro m rl c; rfl
  | cons b bs ih =>
    intro m rl c
    obtain ⟨i, t⟩ := b
    simp only [runTrainBatches, ih]

theorem epochRun_mkdir_irrel (env : TrainEnv α M) (r : Except OSErr Unit)
    (N e : ℕ) (nosave : Bool) (saveDir : String) (st : EvalState M) :
    epochRun { env with mkdirResult := r } N e nosave saveDir st =
      epochRun env N e nosave saveDir st := by
  simp only [epochRun, runTrainBatches_mkdir_irrel]

theorem trainLoop_mkdir_irrel (env : TrainEnv α M) (r : Except OSErr Unit)
    (N : ℕ) (nosave : Bool) (saveDir : String) :
    ∀ (n e : ℕ) (st : EvalState M),
      trainLoop { env with mkdirResult := r } N nosave saveDir n e st =
        trainLoop env N nosave saveDir n e st := by
  intro n
  induction n with
  | zero => intro e st; rfl
  | succ n ih =>
    intro e st
    simp only [trainLoop, epochRun_mkdir_irrel]
    cases epochRun env N e nosave saveDir st with
    | error err => rfl
    | ok p =>
      obtain ⟨st1, evs⟩ := p
      simp only [ih]

theorem expectedSaves_filter (nosave : Bool) (saveDir : String) :
    ∀ n e, expectedSaves nosave saveDir n e =
      if nosave then []
      else ((List.range' e n).filter fun k => decide (k % 3 = 2)).map
        (savePath saveDir) := by
  intro n
  induction n with
  | zero => intro e; cases nosave <;> simp [expectedSaves]
  | succ n ih =>
    intro e
    cases nosave with
    | true => simp [expectedSaves, ih]
    | false =>
      simp only [expectedSaves, ih, if_neg Bool.false_ne_true, List.range']
      by_cases hc : e % 3 = 2 <;> simp [hc]

theorem train_model_ok (env : TrainEnv α M) (N : ℕ) (nosave : Bool)
    (saveDir : String) (st : EvalState M) (htr : env.trainBatches ≠ [])
    (hte : env.testBatches ≠ [])
    (hb : ∀ b ∈ env.testBatches, b.2.length ≠ 0)
    (hmk : makedirsCaught env.mkdirResult = .ok ()) :
    ∃ evs stf, train_model env N nosave saveDir st = .ok (evs, stf) ∧
      savesOf evs = expectedSaves nosave saveDir N 0 ∧
      accTrainOf evs = expectedAccTrain env N st.model N 0 := by
  obtain ⟨evs, stf, hloop, hsave, hacc⟩ :=
    trainLoop_ok env N nosave saveDir htr hte hb N 0 st
  refine ⟨evs, stf, ?_, hsave, hacc⟩
  cases hteb : env.testBatches with
  | nil => exact absurd hteb hte
  | cons b bs =>
    simp only [train_model, hteb, hmk]
    exact hloop

/-- C4: for every completed run of `train_model` (non-empty train loader,
non-empty test loader with non-empty batches, checkpoint directory created or
already existing) over epoch indices 0..N-1, with `nosave = false` a
checkpoint file named `save_dir/{epoch}.pt` is written exactly on the epochs
where `epoch % 3 == 2`, and with `nosave = true` no checkpoint is ever
written. -/
theorem C4_checkpoint_cadence (env : TrainEnv α M) (N : ℕ) (nosave : Bool)
    (saveDir : String) (st : EvalState M) (htr : env.trainBatches ≠ [])
    (hte : env.testBatches ≠ [])
    (hb : ∀ b ∈ env.testBatches, b.2.length ≠ 0)
    (hmk : makedirsCaught env.mkdirResult = .ok ()) :
    ∃ evs stf, train_model env N nosave saveDir st = .ok (evs, stf) ∧
      savesOf evs = (if nosave then []
        else ((List.range N).filter fun k => decide (k % 3 = 2)).map
          (savePath saveDir)) := by
  obtain ⟨evs, stf, hrun, hsave, _⟩ :=
    train_model_ok env N nosave saveDir st htr hte hb hmk
  refine ⟨evs, stf, hrun, ?_⟩
  rw [hsave, expectedSaves_filter, List.range_eq_range']

theorem C4_checkpoint_cadence_witness :
    trivialEnv.trainBatches ≠ [] ∧ trivialEnv.testBatches ≠ [] ∧
    makedirsCaught trivialEnv.mkdirResult = .ok () ∧
    ∃ evs stf, train_model trivialEnv 3 false "ckpt" ⟨(), true⟩ =
      .ok (evs, stf) ∧ savesOf evs = [savePath "ckpt" 2] := by
  have h1 : trivialEnv.trainBatches ≠ [] := by simp [trivialEnv]
  have h2 : trivialEnv.testBatches ≠ [] := by simp [trivialEnv]
  have hb : ∀ b ∈ trivialEnv.testBatches, b.2.length ≠ 0 := by
    simp [trivialEnv]
  have hmk : makedirsCaught trivialEnv.mkdirResult = .ok () := rfl
  obtain ⟨evs, stf, hrun, hsave⟩ :=
    C4_checkpoint_cadence trivialEnv 3 false "ckpt" ⟨(), true⟩ h1 h2 hb hmk
  refine ⟨h1, h2, hmk, evs, stf, hrun, ?_⟩
  rw [hsave]
  simp [List.range_succ]

theorem train_model_eq_trainLoop (env : TrainEnv α M) (N : ℕ)
    (nosave : Bool) (saveDir : String) (st : EvalState M)
    (hte : env.testBatches ≠ [])
    (hmk : makedirsCaught env.mkdirResult = .ok ()) :
    train_model env N nosave saveDir st =
      trainLoop env N nosave saveDir N 0 st := by
  cases hteb : env.testBatches with
  | nil => exact absurd hteb hte
  | cons b bs => simp only [train_model, hteb, hmk]

/-- C9: when `os.makedirs` on the checkpoint directory raises
`FileExistsError`, `train_model` silently ignores it and the run proceeds
exactly as if the directory creation had succeeded; this is the only
recovered error — any other `os.makedirs` failure, and every failure in data
loading, propagates and terminates the run without retry. -/
theorem C9_error_recovery {α M γ δ : Type} :
    (∀ (env : TrainEnv α M) (N : ℕ) (nosave : Bool) (saveDir : String)
      (st : EvalState M), env.mkdirResult = .error .fileExists →
        train_model env N nosave saveDir st =
          train_model { env with mkdirResult := .ok () } N nosave saveDir
            st) ∧
    (∀ (env : TrainEnv α M) (N : ℕ) (nosave : Bool) (saveDir : String)
      (st : EvalState M) (e : OSErr), e ≠ .fileExists →
        env.mkdirResult = .error e → env.testBatches ≠ [] →
        train_model env N nosave saveDir st = .error (.osError e)) ∧
    (∀ (lenv : LoadEnv γ δ)
      (pipe : List δ × List ℤ → TrainEnv α M × EvalState M) (N : ℕ)
      (nosave : Bool) (saveDir : String) (err : PErr),
        load_data lenv = .error err →
        loadAndTrain lenv pipe N nosave saveDir = .error err) := by
  refine ⟨?_, ?_, ?_⟩
  · intro env N nosave saveDir st hmk
    by_cases hte : env.testBatches = []
    · simp only [train_model, hte]
    · rw [train_model_eq_trainLoop env N nosave saveDir st hte
          (by rw [hmk]; rfl),
        train_model_eq_trainLoop { env with mkdirResult := .ok () } N nosave
          saveDir st hte rfl]
      exact (trainLoop_mkdir_irrel env (Except.ok ()) N nosave saveDir N 0
        st).symm
  · intro env N nosave saveDir st e he hmk hteb
    cases hteb2 : env.testBatches with
    | nil => exact absurd hteb2 hteb
    | cons b bs =>
      cases e with
      | fileExists => exact absurd rfl he
      | other code => simp only [train_model, hteb2, hmk, makedirsCaught]
  · intro lenv pipe N nosave saveDir err hload
    simp only [loadAndTrain, hload]

theorem C9_error_recovery_witness :
    feEnv.mkdirResult = .error .fileExists ∧
    train_model feEnv 1 true "ckpt" (⟨(), true⟩ : EvalState Unit) =
      train_model { feEnv with mkdirResult := .ok () } 1 true "ckpt"
        ⟨(), true⟩ ∧
    (OSErr.other 13) ≠ .fileExists ∧
    permEnv.mkdirResult = .error (.other 13) ∧
    permEnv.testBatches ≠ [] ∧
    train_model permEnv 1 true "ckpt" (⟨(), true⟩ : EvalState Unit) =
      .error (.osError (.other 13)) ∧
    load_data loadEnvShort = .error .badLabel ∧
    loadAndTrain loadEnvShort (fun _ => (trivialEnv, ⟨(), true⟩)) 1 true
      "ckpt" = .error .badLabel := by
  have t := @C9_error_recovery Unit Unit Unit Unit
  have h5 : permEnv.testBatches ≠ [] := by simp [permEnv, trivialEnv]
  have h7 : load_data loadEnvShort = .error .badLabel := by decide
  exact ⟨rfl, t.1 feEnv 1 true "ckpt" ⟨(), true⟩ rfl, by decide, rfl, h5,
    t.2.1 permEnv 1 true "ckpt" ⟨(), true⟩ (.other 13) (by decide) rfl h5,
    h7, t.2.2 loadEnvShort (fun _ => (trivialEnv, ⟨(), true⟩)) 1 true "ckpt"
      .badLabel h7⟩

theorem countCorrect_pair_ones : countCorrect [(1 : ℝ), 1] [(1 : ℝ), 1] = 2 := by
  have ht : thresholdFloat (1 : ℝ) = 1 := by
    unfold thresholdFloat
    rw [if_pos]
    norm_num
  simp [countCorrect, ht]

/-- C10: in every completed run of `train_model`, the values emitted to the
metrics sink as scalar `accuracy/Train` are, epoch by epoch, the whole-epoch
count of correct thresholded predictions divided by the number of training
batches (`correct / len(train_dataloader)`), not divided by the number of
training samples; in particular with a single two-sample batch on which both
predictions are correct the emitted value is 2, which exceeds 1, so the
quantity is not a percentage or fraction of samples. -/
theorem C10_accuracy_train_scale {α M : Type} :
    (∀ (env : TrainEnv α M) (N : ℕ) (nosave : Bool) (saveDir : String)
      (st : EvalState M), env.trainBatches ≠ [] → env.testBatches ≠ [] →
      (∀ b ∈ env.testBatches, b.2.length ≠ 0) →
      makedirsCaught env.mkdirResult = .ok () →
      ∃ evs stf, train_model env N nosave saveDir st = .ok (evs, stf) ∧
        accTrainOf evs = expectedAccTrain env N st.model N 0) ∧
    ∃ evs stf, train_model bigBatchEnv 1 true "ckpt" ⟨(), true⟩ =
      .ok (evs, stf) ∧ accTrainOf evs = [(2 : ℝ)] ∧ (1 : ℝ) < 2 := by
  constructor
  · intro env N nosave saveDir st htr hte hb hmk
    obtain ⟨evs, stf, hrun, _, hacc⟩ :=
      train_model_ok env N nosave saveDir st htr hte hb hmk
    exact ⟨evs, stf, hrun, hacc⟩
  · have h1 : bigBatchEnv.trainBatches ≠ [] := by simp [bigBatchEnv]
    have h2 : bigBatchEnv.testBatches ≠ [] := by simp [bigBatchEnv]
    have hb : ∀ b ∈ bigBatchEnv.testBatches, b.2.length ≠ 0 := by
      simp [bigBatchEnv]
    obtain ⟨evs, stf, hrun, _, hacc⟩ :=
      train_model_ok bigBatchEnv 1 true "ckpt" ⟨(), true⟩ h1 h2 hb rfl
    refine ⟨evs, stf, hrun, ?_, by norm_num⟩
    rw [hacc]
    simp only [expectedAccTrain, accTrainValue, batchCorrectSum, runModels,
      bigBatchEnv, countCorrect_pair_ones]
    norm_num [countCorrect_pair_ones]

theorem C10_accuracy_train_scale_witness :
    (trivialEnv.trainBatches ≠ [] ∧ trivialEnv.testBatches ≠ [] ∧
      makedirsCaught trivialEnv.mkdirResult = .ok ()) ∧
    (∃ evs stf, train_model trivialEnv 1 true "ckpt" ⟨(), true⟩ =
      .ok (evs, stf) ∧
      accTrainOf evs =
        expectedAccTrain trivialEnv 1
          (⟨(), true⟩ : EvalState Unit).model 1 0) ∧
    ∃ evs stf, train_model bigBatchEnv 1 true "ckpt" ⟨(), true⟩ =
      .ok (evs, stf) ∧ accTrainOf evs = [(2 : ℝ)] ∧ (1 : ℝ) < 2 := by
  have t := @C10_accuracy_train_scale Unit Unit
  refine ⟨⟨by simp [trivialEnv], by simp [trivialEnv], rfl⟩, ?_, t.2⟩
  exact t.1 trivialEnv 1 true "ckpt" ⟨(), true⟩ (by simp [trivialEnv])
    (by simp [trivialEnv]) (by simp [trivialEnv]) rfl
